import Mathlib

/-!
Verification of the anchor labeling and target-synthesis pipeline of
`examples/faster-rcnn/objectlocalization.py` (class `ObjectLocalization`
and its module-level utility functions).

The numeric code is embedded shallowly: NumPy float arithmetic is
idealized as exact rational arithmetic (`ℚ`), NumPy integer arrays as
`ℤ`/`ℕ`, and NumPy arrays as Lean lists (matrices as lists of rows).
NumPy reductions that raise `ValueError` on empty axes (`max`/`argmax`
over a zero-length axis) are modelled with `Except String`.
-/

/-- A bounding box `[xmin, ymin, xmax, ymax]`, the row layout used for
both anchors and ground-truth boxes throughout the source file
(`BB_XMIN_IDX = 0`, `BB_YMIN_IDX = 1`, `BB_XMAX_IDX = 2`, `BB_YMAX_IDX = 3`). -/
structure Box where
  xmin : ℚ
  ymin : ℚ
  xmax : ℚ
  ymax : ℚ
  deriving DecidableEq

instance : Inhabited Box := ⟨⟨0, 0, 0, 0⟩⟩

/-- A well-formed box: `x_max >= x_min` and `y_max >= y_min` (spec §3). -/
def validBox (b : Box) : Prop := b.xmin ≤ b.xmax ∧ b.ymin ≤ b.ymax

/-- Pixel-inclusive area of a box, `(x_max - x_min + 1) * (y_max - y_min + 1)`,
as computed for `gt_box_area` and the `rp` area inside `calculate_bb_overlap`. -/
def boxArea (b : Box) : ℚ := (b.xmax - b.xmin + 1) * (b.ymax - b.ymin + 1)

/-- Intersection width `iw = min(rp[r,2], gt[g,2]) - max(rp[r,0], gt[g,0]) + 1`
from `calculate_bb_overlap`. -/
def interW (r g : Box) : ℚ := min r.xmax g.xmax - max r.xmin g.xmin + 1

/-- Intersection height `ih = min(rp[r,3], gt[g,3]) - max(rp[r,1], gt[g,1]) + 1`
from `calculate_bb_overlap`. -/
def interH (r g : Box) : ℚ := min r.ymax g.ymax - max r.ymin g.ymin + 1

/-- One entry of the matrix produced by `calculate_bb_overlap`: the IoU of a
region proposal `r` against a ground-truth box `g`, left at `0` unless both
`iw > 0` and `ih > 0`, in which case it is
`iw * ih / (area(rp) + area(gt) - iw * ih)`. -/
def bbOverlap (r g : Box) : ℚ :=
  if 0 < interW r g then
    if 0 < interH r g then
      interW r g * interH r g / (boxArea r + boxArea g - interW r g * interH r g)
    else 0
  else 0

/-- A box with integer (pixel-index) coordinates, the form produced by the
annotation loader (`gt_bb` is a `np.uint16` array) and by the anchor
generator. -/
structure IntBox where
  xmin : ℤ
  ymin : ℤ
  xmax : ℤ
  ymax : ℤ
  deriving DecidableEq

/-- Interpret an integer-coordinate box as a rational-coordinate box. -/
def IntBox.toBox (b : IntBox) : Box := ⟨b.xmin, b.ymin, b.xmax, b.ymax⟩

/-- A well-formed integer box. -/
def validIntBox (b : IntBox) : Prop := b.xmin ≤ b.xmax ∧ b.ymin ≤ b.ymax

/-- Two integer boxes are spatially disjoint when their closed coordinate
rectangles `[xmin, xmax] × [ymin, ymax]` share no pixel: the x-projections
or the y-projections are disjoint intervals. -/
def disjointBoxes (a b : IntBox) : Prop :=
  min a.xmax b.xmax < max a.xmin b.xmin ∨ min a.ymax b.ymax < max a.ymin b.ymin

/-- NumPy `max` of a nonempty vector. The empty case is never used: callers
model NumPy's `ValueError` on zero-size reductions with an explicit
`Except.error` before reducing, so the `0` returned for `[]` is dead code. -/
def npMax : List ℚ → ℚ
  | [] => 0
  | a :: t => t.foldl max a

/-- NumPy `argmax` of a nonempty vector: the first index attaining the
maximum. As with `npMax`, the empty case is guarded by an explicit error. -/
def npArgmax (l : List ℚ) : ℕ := l.findIdx fun x => decide (npMax l ≤ x)

/-- NumPy `np.round`: round half to even (banker's rounding), the IEEE
behavior of `np.round` used by `calculate_scale_shape`. -/
def npRound (q : ℚ) : ℤ :=
  if q - ⌊q⌋ < 1 / 2 then ⌊q⌋
  else if 1 / 2 < q - ⌊q⌋ then ⌊q⌋ + 1
  else if Even ⌊q⌋ then ⌊q⌋ else ⌊q⌋ + 1

/-- Python `int(...)` applied to the nonnegative float `fg_fractions * nrois`
in `_sample_anchors`. Python truncates toward zero; for the nonnegative
values this program passes, truncation coincides with the floor used here. -/
def pyInt (q : ℚ) : ℤ := ⌊q⌋

/-- `ObjectLocalization.calculate_scale_shape` (lines 511-520): given an
image size `(w, h)`, `im_scale = MIN_SIZE / min(w, h)` unless
`round(im_scale * max(w, h)) > MAX_SIZE`, in which case
`im_scale = MAX_SIZE / max(w, h)`; the returned shape is
`round((w, h) * im_scale)` cast to integer.  `minSize`/`maxSize` stand for
the class constants `MIN_SIZE`/`MAX_SIZE` (600/1000 for `ObjectLocalization`
and `PASCAL`). -/
def calculate_scale_shape (minSize maxSize : ℤ) (size : ℤ × ℤ) : ℚ × ℤ × ℤ :=
  let m : ℤ := min size.1 size.2
  let M : ℤ := max size.1 size.2
  let scale0 : ℚ := (minSize : ℚ) / (m : ℚ)
  let scale : ℚ := if (maxSize : ℤ) < npRound (scale0 * (M : ℚ)) then (maxSize : ℚ) / (M : ℚ) else scale0
  (scale, npRound ((size.1 : ℚ) * scale), npRound ((size.2 : ℚ) * scale))

/-- `inside_im_bounds` (lines 879-889): indices (in ascending order) of the
boxes satisfying `x_min >= 0`, `y_min >= 0`, `x_max < im_shape[0]` and
`y_max < im_shape[1]`. -/
def inside_im_bounds (boxes : List Box) (im_shape : ℤ × ℤ) : List ℕ :=
  (List.range boxes.length).filter fun i =>
    decide (0 ≤ (boxes.getD i default).xmin ∧ 0 ≤ (boxes.getD i default).ymin ∧
      (boxes.getD i default).xmax < (im_shape.1 : ℚ) ∧
      (boxes.getD i default).ymax < (im_shape.2 : ℚ))

/-- Elementwise scaling `db['gt_bb'] * im_scale` of one box. -/
def scaleBox (s : ℚ) (b : Box) : Box := ⟨s * b.xmin, s * b.ymin, s * b.xmax, s * b.ymax⟩

/-- The fields of one entry of `roi_db` consumed by `add_anchors`:
ground-truth boxes, their integer class labels, and the raw image size. -/
structure RoiRecord where
  gt_bb : List Box
  gt_classes : List ℤ
  img_shape : ℤ × ℤ
  deriving DecidableEq

/-- The per-anchor fields `add_anchors` stores back into a `roi_db` entry
(the regression targets, which involve `np.log`, are not needed by any claim
and are omitted): `labels`, `max_classes` (the raw `overlaps.argmax(axis=1)`
values) and `idx_inside`. -/
structure LabeledRecord where
  labels : List ℚ
  max_classes : List ℕ
  idx_inside : List ℕ
  deriving DecidableEq

/-- `NEGATIVE_OVERLAP = 0.3` (line 107). -/
def NEGATIVE_OVERLAP : ℚ := 3 / 10

/-- `POSITIVE_OVERLAP = 0.7` (line 108). -/
def POSITIVE_OVERLAP : ℚ := 7 / 10

/-- The in-bounds anchor indices `idx_inside` computed for one record
(line 325), after resolving the image scale/shape (line 322). -/
def idxInsideOf (all_anchors : List Box) (minSize maxSize : ℤ) (db : RoiRecord) : List ℕ :=
  inside_im_bounds all_anchors (calculate_scale_shape minSize maxSize db.img_shape).2

/-- The filtered anchors `anchors = all_anchors[idx_inside, :]` (line 331). -/
def insideAnchors (all_anchors : List Box) (minSize maxSize : ℤ) (db : RoiRecord) : List Box :=
  (idxInsideOf all_anchors minSize maxSize db).map (all_anchors.getD · default)

/-- The scaled ground-truth boxes `db['gt_bb'] * im_scale` (line 338). -/
def scaledGt (minSize maxSize : ℤ) (db : RoiRecord) : List Box :=
  db.gt_bb.map (scaleBox (calculate_scale_shape minSize maxSize db.img_shape).1)

/-- The overlap matrix `overlaps = calculate_bb_overlap(anchors, gt_bb * im_scale)`
(lines 337-339), one row per in-bounds anchor, one column per ground-truth box. -/
def overlapsOf (all_anchors : List Box) (minSize maxSize : ℤ) (db : RoiRecord) : List (List ℚ) :=
  (insideAnchors all_anchors minSize maxSize db).map fun a =>
    (scaledGt minSize maxSize db).map fun g => bbOverlap a g

/-- Column `j` maximum of an overlap matrix, one entry of `overlaps.max(axis=0)`
(line 348). -/
def colMaxAt (m : List (List ℚ)) (j : ℕ) : ℚ := npMax (m.map fun row => row.getD j 0)

/-- The label assigned to the anchor whose overlap row is `row` by lines
333-353, written as one conditional: the sequential array writes
(`fill(-1)`, then `labels[bg_idx] = 0`, then `labels[gt_idx] = 1`, then
`labels[fg_idx] = 1`) give the foreground conditions precedence over the
background condition, and the two foreground writes both store `1`. -/
def anchorLabel (m : List (List ℚ)) (numGt : ℕ) (row : List ℚ) : ℚ :=
  if POSITIVE_OVERLAP ≤ npMax row then 1
  else if (List.range numGt).any (fun j => decide (row.getD j 0 = colMaxAt m j)) then 1
  else if npMax row < NEGATIVE_OVERLAP then 0 else -1

/-- The full label vector computed by lines 333-353 for one record. -/
def labelsOf (all_anchors : List Box) (minSize maxSize : ℤ) (db : RoiRecord) : List ℚ :=
  (overlapsOf all_anchors minSize maxSize db).map
    (anchorLabel (overlapsOf all_anchors minSize maxSize db) db.gt_bb.length)

/-- `ObjectLocalization.add_anchors` (lines 303-381) restricted to a single
`roi_db` entry, with the dense anchor grid `all_anchors` (produced by the
external `generate_all_anchors`) passed in as data.  NumPy raises
`ValueError` for `overlaps.max(axis=1)` (line 342) when the matrix has at
least one row and zero columns, and for `overlaps.max(axis=0)` (line 348)
when it has zero rows and at least one column; both are modelled as
`Except.error`.  On success the stored `labels`, `max_classes`
(`overlaps.argmax(axis=1)`, line 370) and `idx_inside` are returned. -/
def add_anchors_one (all_anchors : List Box) (minSize maxSize : ℤ) (db : RoiRecord) :
    Except String LabeledRecord :=
  if ((insideAnchors all_anchors minSize maxSize db).length ≠ 0 ∧ db.gt_bb.length = 0) ∨
      ((insideAnchors all_anchors minSize maxSize db).length = 0 ∧ db.gt_bb.length ≠ 0) then
    Except.error "zero-size array to reduction operation maximum which has no identity"
  else
    Except.ok ⟨labelsOf all_anchors minSize maxSize db,
      (overlapsOf all_anchors minSize maxSize db).map npArgmax,
      idxInsideOf all_anchors minSize maxSize db⟩

/-- The foreground pool `fg_idx = np.where(db['labels'] == 1)[0]` (line 532). -/
def fgPool (labels : List ℚ) : List ℕ :=
  (List.range labels.length).filter fun i => decide (labels.getD i (-1) = 1)

/-- The background pool `bg_idx = np.where(db['labels'] == 0)[0]` (line 533). -/
def bgPool (labels : List ℚ) : List ℕ :=
  (List.range labels.length).filter fun i => decide (labels.getD i (-1) = 0)

/-- `num_fg = int(fg_fractions * nrois)` (line 531). -/
def numFG (nrois : ℕ) (fg_fractions : ℚ) : ℕ := (pyInt (fg_fractions * (nrois : ℚ))).toNat

/-- `ObjectLocalization._sample_anchors` (lines 528-549) on the
`deterministic=True` branch, returning the selected anchor indices `idx`
(the Python function also returns `db['labels'][idx]` and
`db['bbox_targets'][idx, :]`, which are gathers over `idx`).  The
`rng.choice` branch differs only in which pool members are kept, not in the
counts, so the final `assert len(idx) == nrois` (line 546) fails on the same
inputs in both branches; the assertion failure is modelled as
`Except.error`. -/
def sample_anchors (labels : List ℚ) (nrois : ℕ) (fg_fractions : ℚ) : Except String (List ℕ) :=
  let num_fg_this := min (numFG nrois fg_fractions) (fgPool labels).length
  let num_bg_this := min (nrois - num_fg_this) (bgPool labels).length
  let idx := (fgPool labels).take num_fg_this ++ (bgPool labels).take num_bg_this
  if idx.length = nrois then Except.ok idx else Except.error "assert len(idx) == nrois"

/-- NumPy fancy-indexing gather `full[indices]` (for a 1-D array) or
`full[indices, :]` (row gather), the operation `add_anchors` uses at line 331
and whose inverse scatter `_unmap` must realize.  Out-of-range indices never
occur in the verified uses; `d` is returned for them. -/
def npGather {α : Type} (full : List α) (indices : List ℕ) (d : α) : List α :=
  indices.map (full.getD · d)

/-- `_unmap` (lines 863-876): build a length-`count` array filled with
`fill`, then scatter `data` to positions `inds` (`ret[inds] = data`,
last write winning, exactly as NumPy fancy-index assignment).  The Python
function branches on `len(data.shape)` only to build the result shape; for
both the 1-D (labels) and 2-D (row-wise targets) cases the scatter is this
same operation with `α` the element or row type. -/
def npUnmap {α : Type} (data : List α) (count : ℕ) (inds : List ℕ) (fill : α) : List α :=
  (inds.zip data).foldl (fun acc p => acc.set p.1 p.2) (List.replicate count fill)

/-- `np.reshape(inds, (-1, 2))` on a flat index vector: consecutive pairs. -/
def pairUp : List ℕ → List (ℕ × ℕ)
  | [] => []
  | [_] => []
  | a :: b :: t => (a, b) :: pairUp t

/-- `ObjectLocalization._shuffle_roidb` (lines 551-572).  The three draws
from `self.be.rng` are abstracted as the functions `permH`, `permV`
(`rng.permutation` on the horizontal and vertical index vectors) and
`permRows` (the row shuffle `inds[row_perm, :]`); the records enter only
through their `im_width`/`im_height` fields.  `np.reshape(inds, (-1, 2))`
raises `ValueError` when `inds` has odd length, modelled as `Except.error`;
otherwise the pairs are row-permuted and flattened back. -/
def shuffle_roidb (widths heights : List ℤ) (permH permV : List ℕ → List ℕ)
    (permRows : List (ℕ × ℕ) → List (ℕ × ℕ)) : Except String (List ℕ) :=
  let n := widths.length
  let horz_inds := (List.range n).filter fun i => decide (heights.getD i 0 ≤ widths.getD i 0)
  let vert_inds := (List.range n).filter fun i => decide (¬ heights.getD i 0 ≤ widths.getD i 0)
  let inds := permH horz_inds ++ permV vert_inds
  if inds.length % 2 = 0 then
    Except.ok (((permRows (pairUp inds)).map fun p => [p.1, p.2]).flatten)
  else Except.error "cannot reshape array into shape (2)"

/-! ### Helper lemmas about folded maxima and list indexing -/

theorem le_foldl_max (t : List ℚ) (a : ℚ) : a ≤ t.foldl max a := by
  induction t generalizing a with
  | nil => exact le_refl a
  | cons b t ih => exact le_trans (le_max_left a b) (ih (max a b))

theorem foldl_max_le_of_mem (t : List ℚ) (b : ℚ) : ∀ a : ℚ, b ∈ t → b ≤ t.foldl max a := by
  induction t with
  | nil => intro a hb; cases hb
  | cons c t ih =>
    intro a hb
    rcases List.mem_cons.mp hb with h | h
    · subst h
      exact le_trans (le_max_right a b) (le_foldl_max t (max a b))
    · exact ih (max a c) h

theorem foldl_max_cases (t : List ℚ) (a : ℚ) : t.foldl max a = a ∨ t.foldl max a ∈ t := by
  induction t generalizing a with
  | nil => exact Or.inl rfl
  | cons b t ih =>
    rcases ih (max a b) with h | h
    · rcases max_choice a b with hm | hm
      · exact Or.inl (by rw [List.foldl_cons, h, hm])
      · exact Or.inr (by rw [List.foldl_cons, h, hm]; exact List.mem_cons_self b t)
    · exact Or.inr (List.mem_cons_of_mem b h)

theorem npMax_mem {l : List ℚ} (h : l ≠ []) : npMax l ∈ l := by
  cases l with
  | nil => exact absurd rfl h
  | cons a t =>
    rcases foldl_max_cases t a with hc | hc
    · rw [npMax, hc]; exact List.mem_cons_self a t
    · exact List.mem_cons_of_mem a hc

theorem le_npMax {l : List ℚ} {b : ℚ} (hb : b ∈ l) : b ≤ npMax l := by
  cases l with
  | nil => cases hb
  | cons a t =>
    rcases List.mem_cons.mp hb with h | h
    · subst h; exact le_foldl_max t b
    · exact foldl_max_le_of_mem t b a h

theorem getD_map_of_lt {α β : Type} (f : α → β) (l : List α) {n : ℕ} (h : n < l.length)
    (d : β) (dd : α) : (l.map f).getD n d = f (l.getD n dd) := by
  rw [List.getD_eq_getElem?_getD, List.getD_eq_getElem?_getD, List.getElem?_map,
    List.getElem?_eq_getElem h]
  rfl

theorem getD_of_getElem {α : Type} {l : List α} {n : ℕ} {a : α} (h : n < l.length)
    (ha : l[n] = a) (d : α) : l.getD n d = a := by
  rw [List.getD_eq_getElem?_getD, List.getElem?_eq_getElem h, ha]
  rfl

/-! ### Claim C7: symmetry, bounds, self-overlap and disjointness of `calculate_bb_overlap` -/

theorem interW_comm (a b : Box) : interW a b = interW b a := by
  rw [interW, interW, min_comm, max_comm]

theorem interH_comm (a b : Box) : interH a b = interH b a := by
  rw [interH, interH, min_comm, max_comm]

theorem bbOverlap_comm (a b : Box) : bbOverlap a b = bbOverlap b a := by
  rw [bbOverlap, bbOverlap, interW_comm b a, interH_comm b a, add_comm (boxArea b) (boxArea a)]

theorem interW_le_left {a b : Box} : interW a b ≤ a.xmax - a.xmin + 1 := by
  have h1 : min a.xmax b.xmax ≤ a.xmax := min_le_left _ _
  have h2 : a.xmin ≤ max a.xmin b.xmin := le_max_left _ _
  rw [interW]; linarith

theorem interH_le_left {a b : Box} : interH a b ≤ a.ymax - a.ymin + 1 := by
  have h1 : min a.ymax b.ymax ≤ a.ymax := min_le_left _ _
  have h2 : a.ymin ≤ max a.ymin b.ymin := le_max_left _ _
  rw [interH]; linarith

theorem interW_le_right {a b : Box} : interW a b ≤ b.xmax - b.xmin + 1 := by
  rw [interW_comm]; exact interW_le_left

theorem interH_le_right {a b : Box} : interH a b ≤ b.ymax - b.ymin + 1 := by
  rw [interH_comm]; exact interH_le_left

theorem inter_le_boxArea_left {a b : Box} (hw : 0 < interW a b) (hh : 0 < interH a b) :
    interW a b * interH a b ≤ boxArea a := by
  rw [boxArea]
  exact mul_le_mul interW_le_left interH_le_left (le_of_lt hh)
    (le_trans (le_of_lt hw) interW_le_left)

theorem inter_le_boxArea_right {a b : Box} (hw : 0 < interW a b) (hh : 0 < interH a b) :
    interW a b * interH a b ≤ boxArea b := by
  rw [interW_comm, interH_comm]
  exact inter_le_boxArea_left (interW_comm a b ▸ hw) (interH_comm a b ▸ hh)

theorem bbOverlap_nonneg (a b : Box) : 0 ≤ bbOverlap a b := by
  rw [bbOverlap]
  split_ifs with hw hh
  · have hb : interW a b * interH a b ≤ boxArea b := inter_le_boxArea_right hw hh
    have hpos : 0 < interW a b * interH a b := mul_pos hw hh
    have hua : 0 < boxArea a + boxArea b - interW a b * interH a b := by
      have ha : interW a b * interH a b ≤ boxArea a := inter_le_boxArea_left hw hh
      linarith
    exact div_nonneg (le_of_lt hpos) (le_of_lt hua)
  · exact le_refl 0
  · exact le_refl 0

theorem bbOverlap_le_one (a b : Box) : bbOverlap a b ≤ 1 := by
  rw [bbOverlap]
  split_ifs with hw hh
  · have ha : interW a b * interH a b ≤ boxArea a := inter_le_boxArea_left hw hh
    have hb : interW a b * interH a b ≤ boxArea b := inter_le_boxArea_right hw hh
    have hpos : 0 < interW a b * interH a b := mul_pos hw hh
    have hua : 0 < boxArea a + boxArea b - interW a b * interH a b := by linarith
    rw [div_le_one hua]
    linarith
  · exact zero_le_one
  · exact zero_le_one

theorem bbOverlap_self {a : Box} (h : validBox a) : bbOverlap a a = 1 := by
  have hw : interW a a = a.xmax - a.xmin + 1 := by rw [interW, min_self, max_self]
  have hh : interH a a = a.ymax - a.ymin + 1 := by rw [interH, min_self, max_self]
  have hwpos : 0 < interW a a := by rw [hw]; linarith [h.1]
  have hhpos : 0 < interH a a := by rw [hh]; linarith [h.2]
  rw [bbOverlap, if_pos hwpos, if_pos hhpos]
  have harea : interW a a * interH a a = boxArea a := by rw [hw, hh, boxArea]
  rw [harea]
  have hapos : 0 < boxArea a := by
    rw [boxArea]
    have : (0:ℚ) < a.xmax - a.xmin + 1 := by linarith [h.1]
    have h2 : (0:ℚ) < a.ymax - a.ymin + 1 := by linarith [h.2]
    positivity
  rw [show boxArea a + boxArea a - boxArea a = boxArea a by ring]
  exact div_self (ne_of_gt hapos)

theorem bbOverlap_disjoint {a b : IntBox} (hd : disjointBoxes a b) :
    bbOverlap a.toBox b.toBox = 0 := by
  have hwh : interW a.toBox b.toBox = ((min a.xmax b.xmax - max a.xmin b.xmin + 1 : ℤ) : ℚ) := by
    simp only [interW, IntBox.toBox]
    push_cast
    ring
  have hhh : interH a.toBox b.toBox = ((min a.ymax b.ymax - max a.ymin b.ymin + 1 : ℤ) : ℚ) := by
    simp only [interH, IntBox.toBox]
    push_cast
    ring
  rcases hd with hx | hy
  · have hz : min a.xmax b.xmax - max a.xmin b.xmin + 1 ≤ 0 := by
      linarith [Int.add_one_le_iff.mpr hx]
    have hw : interW a.toBox b.toBox ≤ 0 := by
      rw [hwh]
      exact_mod_cast hz
    rw [bbOverlap, if_neg (not_lt.mpr hw)]
  · have hz : min a.ymax b.ymax - max a.ymin b.ymin + 1 ≤ 0 := by
      linarith [Int.add_one_le_iff.mpr hy]
    have hh : interH a.toBox b.toBox ≤ 0 := by
      rw [hhh]
      exact_mod_cast hz
    rw [bbOverlap]
    split_ifs with hw hih
    · exact absurd hih (not_lt.mpr hh)
    · rfl
    · rfl

/-- Claim C7: for all valid boxes A and B, the pairwise overlap computed by
`calculate_bb_overlap` is symmetric and lies in `[0, 1]`; `overlap(A, A) = 1`;
and spatially disjoint (pixel-coordinate) boxes have overlap exactly `0`. -/
theorem calculate_bb_overlap_props :
    (∀ a b : Box, validBox a → validBox b →
      bbOverlap a b = bbOverlap b a ∧ 0 ≤ bbOverlap a b ∧ bbOverlap a b ≤ 1) ∧
    (∀ a : Box, validBox a → bbOverlap a a = 1) ∧
    (∀ a b : IntBox, validIntBox a → validIntBox b → disjointBoxes a b →
      bbOverlap a.toBox b.toBox = 0) :=
  ⟨fun a b _ _ => ⟨bbOverlap_comm a b, bbOverlap_nonneg a b, bbOverlap_le_one a b⟩,
   fun _ h => bbOverlap_self h,
   fun _ _ _ _ hd => bbOverlap_disjoint hd⟩

/-- Witness for C7 at concrete boxes. -/
theorem calculate_bb_overlap_props_witness :
    (bbOverlap ⟨0, 0, 9, 9⟩ ⟨0, 0, 9, 4⟩ = bbOverlap ⟨0, 0, 9, 4⟩ ⟨0, 0, 9, 9⟩ ∧
      0 ≤ bbOverlap ⟨0, 0, 9, 9⟩ ⟨0, 0, 9, 4⟩ ∧ bbOverlap ⟨0, 0, 9, 9⟩ ⟨0, 0, 9, 4⟩ ≤ 1) ∧
    bbOverlap ⟨0, 0, 9, 9⟩ ⟨0, 0, 9, 9⟩ = 1 ∧
    bbOverlap (IntBox.toBox ⟨0, 0, 1, 1⟩) (IntBox.toBox ⟨5, 5, 6, 6⟩) = 0 :=
  ⟨calculate_bb_overlap_props.1 ⟨0, 0, 9, 9⟩ ⟨0, 0, 9, 4⟩
      (by constructor <;> norm_num) (by constructor <;> norm_num),
   calculate_bb_overlap_props.2.1 ⟨0, 0, 9, 9⟩ (by constructor <;> norm_num),
   calculate_bb_overlap_props.2.2 ⟨0, 0, 1, 1⟩ ⟨5, 5, 6, 6⟩
      (by constructor <;> norm_num) (by constructor <;> norm_num)
      (Or.inl (by norm_num))⟩

/-- Claim C8: `calculate_scale_shape` picks `scale = min_side / min(w, h)`
unless the rounded scaled long side exceeds `max_side`, in which case
`scale = max_side / max(w, h)`; the returned shape is the rounded scaled
size; concretely `(2000, 1000) ↦ (0.5, (1000, 500))` and
`(800, 600) ↦ (1.0, (800, 600))` with min side 600 and max side 1000. -/
theorem calculate_scale_shape_spec :
    (∀ minS maxS w h : ℤ, 0 < w → 0 < h →
      (npRound ((minS : ℚ) / ((min w h : ℤ) : ℚ) * ((max w h : ℤ) : ℚ)) ≤ maxS →
        (calculate_scale_shape minS maxS (w, h)).1 = (minS : ℚ) / ((min w h : ℤ) : ℚ)) ∧
      (maxS < npRound ((minS : ℚ) / ((min w h : ℤ) : ℚ) * ((max w h : ℤ) : ℚ)) →
        (calculate_scale_shape minS maxS (w, h)).1 = (maxS : ℚ) / ((max w h : ℤ) : ℚ)) ∧
      (calculate_scale_shape minS maxS (w, h)).2 =
        (npRound ((w : ℚ) * (calculate_scale_shape minS maxS (w, h)).1),
         npRound ((h : ℚ) * (calculate_scale_shape minS maxS (w, h)).1))) ∧
    calculate_scale_shape 600 1000 (2000, 1000) = (1 / 2, 1000, 500) ∧
    calculate_scale_shape 600 1000 (800, 600) = (1, 800, 600) := by
  refine ⟨fun minS maxS w h _ _ => ⟨?_, ?_, ?_⟩, ?_, ?_⟩
  · intro hle
    simp only [calculate_scale_shape]
    rw [if_neg (not_lt.mpr hle)]
  · intro hgt
    simp only [calculate_scale_shape]
    rw [if_pos hgt]
  · simp only [calculate_scale_shape]
  · simp only [calculate_scale_shape, min_def, max_def]
    norm_num [npRound]
  · simp only [calculate_scale_shape, min_def, max_def]
    norm_num [npRound]

/-! ### Claim C6: the unmap scatter is the inverse of the gather -/

theorem foldl_set_length {α : Type} (pairs : List (ℕ × α)) (init : List α) :
    (pairs.foldl (fun acc p => acc.set p.1 p.2) init).length = init.length := by
  induction pairs generalizing init with
  | nil => rfl
  | cons p t ih => rw [List.foldl_cons, ih, List.length_set]

theorem foldl_set_getElem?_not_mem {α : Type} (pairs : List (ℕ × α)) (init : List α) (j : ℕ)
    (hj : j ∉ pairs.map Prod.fst) :
    (pairs.foldl (fun acc p => acc.set p.1 p.2) init)[j]? = init[j]? := by
  induction pairs generalizing init with
  | nil => rfl
  | cons p t ih =>
    rw [List.map_cons, List.mem_cons] at hj
    push_neg at hj
    rw [List.foldl_cons, ih _ hj.2, List.getElem?_set_ne (fun h => hj.1 h.symm)]

theorem foldl_set_getElem?_mem {α : Type} (pairs : List (ℕ × α)) (init : List α) (j : ℕ) (v : α)
    (hnd : (pairs.map Prod.fst).Nodup) (hmem : (j, v) ∈ pairs) (hj : j < init.length) :
    (pairs.foldl (fun acc p => acc.set p.1 p.2) init)[j]? = some v := by
  induction pairs generalizing init with
  | nil => cases hmem
  | cons p t ih =>
    rw [List.map_cons, List.nodup_cons] at hnd
    rcases List.mem_cons.mp hmem with h | h
    · subst h
      rw [List.foldl_cons, foldl_set_getElem?_not_mem t _ j hnd.1,
        List.getElem?_set_self (by simpa using hj)]
    · rw [List.foldl_cons]
      exact ih (init.set p.1 p.2) hnd.2 h (by simpa using hj)

theorem zip_self_map {α β : Type} (f : α → β) (l : List α) :
    l.zip (l.map f) = l.map fun a => (a, f a) := by
  induction l with
  | nil => rfl
  | cons a t ih => simp [ih]

/-- Claim C6: for every full array, strictly valid index subset, total equal
to the array length and fill value, `_unmap` applied to the gathered subset
rebuilds an array of length `total` that agrees with the original at every
listed index and holds `fill` everywhere else.  The statement is generic in
the element type `α`, covering both the 1-D label case and the row-wise
multi-column target case of `_unmap`. -/
theorem npUnmap_npGather_roundtrip {α : Type} (full : List α) (indices : List ℕ) (fill d : α)
    (hnd : indices.Nodup) (hvalid : ∀ i ∈ indices, i < full.length) :
    (npUnmap (npGather full indices d) full.length indices fill).length = full.length ∧
    ∀ j < full.length,
      (npUnmap (npGather full indices d) full.length indices fill).getD j d =
        if j ∈ indices then full.getD j d else fill := by
  have hpairs : indices.zip (npGather full indices d) =
      indices.map fun i => (i, full.getD i d) := zip_self_map _ indices
  have hkeys : ((indices.map fun i => (i, full.getD i d)).map Prod.fst) = indices := by
    rw [List.map_map]
    exact List.map_id indices
  constructor
  · rw [npUnmap, foldl_set_length, List.length_replicate]
  · intro j hj
    rw [npUnmap, hpairs, List.getD_eq_getElem?_getD]
    by_cases hmem : j ∈ indices
    · rw [if_pos hmem]
      rw [foldl_set_getElem?_mem (indices.map fun i => (i, full.getD i d))
        (List.replicate full.length fill) j (full.getD j d)
        (by rw [hkeys]; exact hnd)
        (List.mem_map_of_mem (fun i => (i, full.getD i d)) hmem)
        (by rw [List.length_replicate]; exact hj)]
      rfl
    · rw [if_neg hmem]
      rw [foldl_set_getElem?_not_mem (indices.map fun i => (i, full.getD i d))
        (List.replicate full.length fill) j (by rw [hkeys]; exact hmem),
        List.getElem?_replicate_of_lt hj]
      rfl

/-- Witness for C6 at a concrete array and index subset. -/
theorem npUnmap_npGather_roundtrip_witness :
    (npUnmap (npGather [(10 : ℚ), 20, 30] [2, 0] 0) 3 [2, 0] (-1)).length = 3 ∧
    (npUnmap (npGather [(10 : ℚ), 20, 30] [2, 0] 0) 3 [2, 0] (-1)).getD 0 0 = 10 ∧
    (npUnmap (npGather [(10 : ℚ), 20, 30] [2, 0] 0) 3 [2, 0] (-1)).getD 1 0 = -1 ∧
    (npUnmap (npGather [(10 : ℚ), 20, 30] [2, 0] 0) 3 [2, 0] (-1)).getD 2 0 = 30 := by
  have h := npUnmap_npGather_roundtrip [(10 : ℚ), 20, 30] [2, 0] (-1) 0
    (by decide) (by decide)
  refine ⟨h.1, ?_, ?_, ?_⟩
  · simpa using h.2 0 (by norm_num)
  · simpa using h.2 1 (by norm_num)
  · simpa using h.2 2 (by norm_num)

/-! ### Claims C5 and C2: the balanced anchor sampler -/

theorem mem_fgPool {labels : List ℚ} {i : ℕ} (h : i ∈ fgPool labels) :
    labels.getD i (-1) = 1 := by
  have hp := (List.mem_filter.mp h).2
  simpa using hp

theorem mem_bgPool {labels : List ℚ} {i : ℕ} (h : i ∈ bgPool labels) :
    labels.getD i (-1) = 0 := by
  have hp := (List.mem_filter.mp h).2
  simpa using hp

/-- Claim C5: with pools at least as large as the requested counts, the
deterministic sampler returns exactly the first `floor(fg_fraction * n)`
foreground-pool indices followed by the first `n - floor(fg_fraction * n)`
background-pool indices (both pools are ascending), a selection of length
exactly `n` containing exactly `floor(fg_fraction * n)` foreground-labeled
and `n - floor(fg_fraction * n)` background-labeled anchors.  The function
is pure, so two invocations on the same inputs agree definitionally. -/
theorem sample_anchors_deterministic (labels : List ℚ) (nrois : ℕ) (fgf : ℚ)
    (hfg : numFG nrois fgf ≤ (fgPool labels).length)
    (hbg : nrois - numFG nrois fgf ≤ (bgPool labels).length)
    (hn : numFG nrois fgf ≤ nrois) :
    sample_anchors labels nrois fgf =
      Except.ok ((fgPool labels).take (numFG nrois fgf) ++
        (bgPool labels).take (nrois - numFG nrois fgf)) ∧
    ((fgPool labels).take (numFG nrois fgf) ++
      (bgPool labels).take (nrois - numFG nrois fgf)).length = nrois ∧
    ((fgPool labels).take (numFG nrois fgf) ++
      (bgPool labels).take (nrois - numFG nrois fgf)).countP
        (fun i => decide (labels.getD i (-1) = 1)) = numFG nrois fgf ∧
    ((fgPool labels).take (numFG nrois fgf) ++
      (bgPool labels).take (nrois - numFG nrois fgf)).countP
        (fun i => decide (labels.getD i (-1) = 0)) = nrois - numFG nrois fgf := by
  have hlen : ((fgPool labels).take (numFG nrois fgf) ++
      (bgPool labels).take (nrois - numFG nrois fgf)).length = nrois := by
    rw [List.length_append, List.length_take_of_le hfg, List.length_take_of_le hbg]
    exact Nat.add_sub_cancel' hn
  have hcount1 : ((fgPool labels).take (numFG nrois fgf) ++
      (bgPool labels).take (nrois - numFG nrois fgf)).countP
        (fun i => decide (labels.getD i (-1) = 1)) = numFG nrois fgf := by
    rw [List.countP_append]
    have h1 : ((fgPool labels).take (numFG nrois fgf)).countP
        (fun i => decide (labels.getD i (-1) = 1)) =
        ((fgPool labels).take (numFG nrois fgf)).length :=
      List.countP_eq_length.mpr fun i hi => by
        simpa using mem_fgPool (List.mem_of_mem_take hi)
    have h2 : ((bgPool labels).take (nrois - numFG nrois fgf)).countP
        (fun i => decide (labels.getD i (-1) = 1)) = 0 := by
      rw [List.countP_eq_zero]
      intro i hi
      have h0 := mem_bgPool (List.mem_of_mem_take hi)
      rw [List.getD_eq_getElem?_getD] at h0
      simp [h0]
    rw [h1, h2, List.length_take_of_le hfg, Nat.add_zero]
  have hcount0 : ((fgPool labels).take (numFG nrois fgf) ++
      (bgPool labels).take (nrois - numFG nrois fgf)).countP
        (fun i => decide (labels.getD i (-1) = 0)) = nrois - numFG nrois fgf := by
    rw [List.countP_append]
    have h1 : ((fgPool labels).take (numFG nrois fgf)).countP
        (fun i => decide (labels.getD i (-1) = 0)) = 0 := by
      rw [List.countP_eq_zero]
      intro i hi
      have h0 := mem_fgPool (List.mem_of_mem_take hi)
      rw [List.getD_eq_getElem?_getD] at h0
      simp [h0]
    have h2 : ((bgPool labels).take (nrois - numFG nrois fgf)).countP
        (fun i => decide (labels.getD i (-1) = 0)) =
        ((bgPool labels).take (nrois - numFG nrois fgf)).length :=
      List.countP_eq_length.mpr fun i hi => by
        simpa using mem_bgPool (List.mem_of_mem_take hi)
    rw [h1, h2, List.length_take_of_le hbg, Nat.zero_add]
  refine ⟨?_, hlen, hcount1, hcount0⟩
  simp only [sample_anchors]
  rw [Nat.min_eq_left hfg, Nat.min_eq_left hbg, if_pos hlen]

/-- Witness for C5: four labeled anchors `[1, 0, 1, 0]`, two requested, half
foreground. -/
theorem sample_anchors_deterministic_witness :
    sample_anchors [(1 : ℚ), 0, 1, 0] 2 (1 / 2) =
      Except.ok ((fgPool [(1 : ℚ), 0, 1, 0]).take (numFG 2 (1 / 2)) ++
        (bgPool [(1 : ℚ), 0, 1, 0]).take (2 - numFG 2 (1 / 2))) := by
  have hnum : numFG 2 (1 / 2) = 1 := by norm_num [numFG, pyInt]
  have hfgp : fgPool [(1 : ℚ), 0, 1, 0] = [0, 2] := by
    norm_num [fgPool, List.range_succ]
  have hbgp : bgPool [(1 : ℚ), 0, 1, 0] = [1, 3] := by
    norm_num [bgPool, List.range_succ]
  exact (sample_anchors_deterministic [(1 : ℚ), 0, 1, 0] 2 (1 / 2)
    (by rw [hnum, hfgp]; norm_num) (by rw [hnum, hbgp]; norm_num)
    (by rw [hnum]; norm_num)).1

/-- Counterexample to claim C2: one background-labeled anchor, no foreground,
two anchors requested.  The selection would have length `1 = actual_fg +
actual_bg < 2 = n`, and instead of returning it, `_sample_anchors` fails its
`assert len(idx) == nrois`. -/
theorem sample_anchors_short_pool_cex :
    sample_anchors [(0 : ℚ)] 2 (1 / 2) = Except.error "assert len(idx) == nrois" := by
  have hnum : numFG 2 (1 / 2) = 1 := by norm_num [numFG, pyInt]
  have hfgp : fgPool [(0 : ℚ)] = [] := by norm_num [fgPool, List.range_succ]
  have hbgp : bgPool [(0 : ℚ)] = [0] := by norm_num [bgPool, List.range_succ]
  simp only [sample_anchors, hnum, hfgp, hbgp]
  norm_num

/-- Claim C2 as amended: when the background pool cannot fill up the request
(`|bg| < n - actual_fg`), `_sample_anchors` raises an assertion failure
instead of returning the short selection; a shortfall of the foreground pool
alone is backfilled with extra background anchors and yields a full-length
selection. -/
theorem sample_anchors_pool_shortfall (labels : List ℚ) (nrois : ℕ) (fgf : ℚ) :
    ((bgPool labels).length < nrois - min (numFG nrois fgf) (fgPool labels).length →
      sample_anchors labels nrois fgf = Except.error "assert len(idx) == nrois") ∧
    ((fgPool labels).length < numFG nrois fgf → numFG nrois fgf ≤ nrois →
      nrois - (fgPool labels).length ≤ (bgPool labels).length →
      sample_anchors labels nrois fgf =
        Except.ok ((fgPool labels) ++
          (bgPool labels).take (nrois - (fgPool labels).length)) ∧
      ((fgPool labels) ++
        (bgPool labels).take (nrois - (fgPool labels).length)).length = nrois) := by
  constructor
  · intro hshort
    have hnf : min (numFG nrois fgf) (fgPool labels).length ≤ (fgPool labels).length :=
      Nat.min_le_right _ _
    have hpos : 0 < nrois - min (numFG nrois fgf) (fgPool labels).length :=
      Nat.lt_of_le_of_lt (Nat.zero_le _) hshort
    have hlt : min (numFG nrois fgf) (fgPool labels).length < nrois :=
      Nat.lt_of_sub_pos hpos
    have hlen : ((fgPool labels).take (min (numFG nrois fgf) (fgPool labels).length) ++
        (bgPool labels).take (bgPool labels).length).length ≠ nrois := by
      rw [List.length_append, List.length_take_of_le hnf, List.take_length]
      omega
    simp only [sample_anchors]
    rw [Nat.min_eq_right (Nat.le_of_lt hshort)]
    rw [if_neg hlen]
  · intro hfglt hnle hbg
    have hfgle : (fgPool labels).length ≤ nrois :=
      Nat.le_of_lt (Nat.lt_of_lt_of_le hfglt hnle)
    have hmin1 : min (numFG nrois fgf) (fgPool labels).length = (fgPool labels).length :=
      Nat.min_eq_right (Nat.le_of_lt hfglt)
    have hlen : ((fgPool labels).take (fgPool labels).length ++
        (bgPool labels).take (nrois - (fgPool labels).length)).length = nrois := by
      rw [List.length_append, List.take_length, List.length_take_of_le hbg]
      exact Nat.add_sub_cancel' hfgle
    constructor
    · simp only [sample_anchors]
      rw [hmin1, Nat.min_eq_left hbg, if_pos hlen, List.take_length]
    · rw [List.length_append, List.length_take_of_le hbg]
      exact Nat.add_sub_cancel' hfgle

/-- Witness for the amended C2: a background-pool shortfall asserts; a
foreground-only shortfall is backfilled and returns a full-length selection. -/
theorem sample_anchors_pool_shortfall_witness :
    sample_anchors [(0 : ℚ)] 2 (1 / 2) = Except.error "assert len(idx) == nrois" ∧
    (sample_anchors [(0 : ℚ), 0] 2 (1 / 2) =
      Except.ok (fgPool [(0 : ℚ), 0] ++
        (bgPool [(0 : ℚ), 0]).take (2 - (fgPool [(0 : ℚ), 0]).length)) ∧
      (fgPool [(0 : ℚ), 0] ++
        (bgPool [(0 : ℚ), 0]).take (2 - (fgPool [(0 : ℚ), 0]).length)).length = 2) := by
  have hnum : numFG 2 (1 / 2) = 1 := by norm_num [numFG, pyInt]
  have hfg1 : fgPool [(0 : ℚ)] = [] := by norm_num [fgPool, List.range_succ]
  have hbg1 : bgPool [(0 : ℚ)] = [0] := by norm_num [bgPool, List.range_succ]
  have hfg2 : fgPool [(0 : ℚ), 0] = [] := by norm_num [fgPool, List.range_succ]
  have hbg2 : bgPool [(0 : ℚ), 0] = [0, 1] := by norm_num [bgPool, List.range_succ]
  constructor
  · exact (sample_anchors_pool_shortfall [(0 : ℚ)] 2 (1 / 2)).1
      (by rw [hnum, hfg1, hbg1]; norm_num)
  · exact (sample_anchors_pool_shortfall [(0 : ℚ), 0] 2 (1 / 2)).2
      (by rw [hnum, hfg2]; norm_num) (by rw [hnum]; norm_num)
      (by rw [hfg2, hbg2]; norm_num)

/-! ### Claim C10: the aspect-grouped shuffle needs an even record count -/

/-- Claim C10: `_shuffle_roidb` reshapes the concatenated permuted horizontal
and vertical index vectors into rows of two, so with any length-preserving
random permutations it fails on an odd number of records and returns an index
sequence on an even number of records. -/
theorem shuffle_roidb_even_iff (widths heights : List ℤ)
    (permH permV : List ℕ → List ℕ) (permRows : List (ℕ × ℕ) → List (ℕ × ℕ))
    (hH : ∀ l, (permH l).length = l.length) (hV : ∀ l, (permV l).length = l.length) :
    (¬ Even widths.length → shuffle_roidb widths heights permH permV permRows =
      Except.error "cannot reshape array into shape (2)") ∧
    (Even widths.length → ∃ out, shuffle_roidb widths heights permH permV permRows =
      Except.ok out) := by
  have hvert : (List.range widths.length).filter
      (fun i => decide (¬ heights.getD i 0 ≤ widths.getD i 0)) =
      (List.range widths.length).filter
        (fun i => !(decide (heights.getD i 0 ≤ widths.getD i 0))) := by
    simp only [decide_not]
  have hlen : (permH ((List.range widths.length).filter
        (fun i => decide (heights.getD i 0 ≤ widths.getD i 0))) ++
      permV ((List.range widths.length).filter
        (fun i => decide (¬ heights.getD i 0 ≤ widths.getD i 0)))).length =
      widths.length := by
    rw [List.length_append, hH, hV, hvert]
    rw [← List.length_eq_length_filter_add, List.length_range]
  constructor
  · intro hodd
    have hmod : ¬ ((permH ((List.range widths.length).filter
          (fun i => decide (heights.getD i 0 ≤ widths.getD i 0))) ++
        permV ((List.range widths.length).filter
          (fun i => decide (¬ heights.getD i 0 ≤ widths.getD i 0)))).length % 2 = 0) := by
      rw [hlen]
      rw [Nat.even_iff] at hodd
      exact hodd
    simp only [shuffle_roidb]
    rw [if_neg hmod]
  · intro heven
    have hmod : (permH ((List.range widths.length).filter
          (fun i => decide (heights.getD i 0 ≤ widths.getD i 0))) ++
        permV ((List.range widths.length).filter
          (fun i => decide (¬ heights.getD i 0 ≤ widths.getD i 0)))).length % 2 = 0 := by
      rw [hlen]
      exact Nat.even_iff.mp heven
    simp only [shuffle_roidb]
    rw [if_pos hmod]
    exact ⟨_, rfl⟩

/-- Witness for C10: one record (odd) fails, two records (even) succeed,
with identity stand-ins for the random permutations. -/
theorem shuffle_roidb_even_iff_witness :
    shuffle_roidb [(10 : ℤ)] [(5 : ℤ)] id id id =
      Except.error "cannot reshape array into shape (2)" ∧
    ∃ out, shuffle_roidb [(10 : ℤ), 5] [(5 : ℤ), 10] id id id = Except.ok out :=
  ⟨(shuffle_roidb_even_iff [(10 : ℤ)] [(5 : ℤ)] id id id
      (fun _ => rfl) (fun _ => rfl)).1 (by decide),
   (shuffle_roidb_even_iff [(10 : ℤ), 5] [(5 : ℤ), 10] id id id
      (fun _ => rfl) (fun _ => rfl)).2 (by decide)⟩

/-! ### Claims C1, C3, C4, C9: anchor labeling -/

theorem getD_mem_of_lt {α : Type} (l : List α) {n : ℕ} (h : n < l.length) (d : α) :
    l.getD n d ∈ l := by
  rw [List.getD_eq_getElem?_getD, List.getElem?_eq_getElem h]
  exact List.getElem_mem h

theorem insideAnchors_length_ne_zero {all_anchors : List Box} {minS maxS : ℤ} {db : RoiRecord}
    (hR : insideAnchors all_anchors minS maxS db ≠ []) :
    (insideAnchors all_anchors minS maxS db).length ≠ 0 :=
  fun h => hR (List.eq_nil_of_length_eq_zero h)

theorem add_anchors_one_ok {all_anchors : List Box} {minS maxS : ℤ} {db : RoiRecord}
    (hR : insideAnchors all_anchors minS maxS db ≠ []) (hG : db.gt_bb ≠ []) :
    add_anchors_one all_anchors minS maxS db =
      Except.ok ⟨labelsOf all_anchors minS maxS db,
        (overlapsOf all_anchors minS maxS db).map npArgmax,
        idxInsideOf all_anchors minS maxS db⟩ := by
  have hGlen : db.gt_bb.length ≠ 0 := fun h => hG (List.eq_nil_of_length_eq_zero h)
  rw [add_anchors_one, if_neg]
  push_neg
  exact ⟨fun _ => hGlen, fun h0 => absurd h0 (insideAnchors_length_ne_zero hR)⟩

theorem overlapsOf_row_getD_nonneg {all_anchors : List Box} {minS maxS : ℤ} {db : RoiRecord}
    {row : List ℚ} (hrow : row ∈ overlapsOf all_anchors minS maxS db)
    {g : ℕ} (hg : g < db.gt_bb.length) : 0 ≤ row.getD g 0 := by
  rcases List.mem_map.mp hrow with ⟨a, _, hrw⟩
  subst hrw
  have hglen : g < (scaledGt minS maxS db).length := by
    rw [scaledGt, List.length_map]
    exact hg
  rw [getD_map_of_lt _ _ hglen 0 default]
  exact bbOverlap_nonneg a _

theorem row_getD_le_colMaxAt {m : List (List ℚ)} {row : List ℚ} (hrow : row ∈ m) (g : ℕ) :
    row.getD g 0 ≤ colMaxAt m g :=
  le_npMax (List.mem_map_of_mem (fun r => r.getD g 0) hrow)

/-- Claim C9: when some ground-truth box has zero overlap with every
in-bounds anchor (its column maximum is `0`), the tie rule
`overlaps == overlaps.max(axis=0)` matches every anchor in that column, so
labeling succeeds and marks every in-bounds anchor `FOREGROUND`. -/
theorem zero_colmax_all_foreground (all_anchors : List Box) (minS maxS : ℤ) (db : RoiRecord)
    (hR : insideAnchors all_anchors minS maxS db ≠ []) (hG : db.gt_bb ≠ [])
    (g : ℕ) (hg : g < db.gt_bb.length)
    (hcol : colMaxAt (overlapsOf all_anchors minS maxS db) g = 0) :
    add_anchors_one all_anchors minS maxS db =
      Except.ok ⟨labelsOf all_anchors minS maxS db,
        (overlapsOf all_anchors minS maxS db).map npArgmax,
        idxInsideOf all_anchors minS maxS db⟩ ∧
    ∀ x ∈ labelsOf all_anchors minS maxS db, x = 1 := by
  refine ⟨add_anchors_one_ok hR hG, ?_⟩
  intro x hx
  rcases List.mem_map.mp hx with ⟨row, hrow, hlab⟩
  subst hlab
  rw [anchorLabel]
  have hany : ((List.range db.gt_bb.length).any fun j =>
      decide (row.getD j 0 = colMaxAt (overlapsOf all_anchors minS maxS db) j)) = true := by
    rw [List.any_eq_true]
    refine ⟨g, List.mem_range.mpr hg, ?_⟩
    rw [decide_eq_true_eq]
    have hle : row.getD g 0 ≤ 0 := hcol ▸ row_getD_le_colMaxAt hrow g
    have hge : 0 ≤ row.getD g 0 := overlapsOf_row_getD_nonneg hrow hg
    rw [le_antisymm hle hge, hcol]
  by_cases h1 : POSITIVE_OVERLAP ≤ npMax row
  · rw [if_pos h1]
  · rw [if_neg h1, if_pos hany]

/-- Claim C4 as amended: for every image with at least one ground-truth box
and at least one in-bounds anchor, labeling succeeds and every ground-truth
box index `g` has its column-wise maximum overlap achieved by at least one
anchor labeled `FOREGROUND` (the anchors selected by the tie rule at
line 348). -/
theorem gt_colmax_achiever_foreground (all_anchors : List Box) (minS maxS : ℤ) (db : RoiRecord)
    (hR : insideAnchors all_anchors minS maxS db ≠ []) (hG : db.gt_bb ≠ []) :
    add_anchors_one all_anchors minS maxS db =
      Except.ok ⟨labelsOf all_anchors minS maxS db,
        (overlapsOf all_anchors minS maxS db).map npArgmax,
        idxInsideOf all_anchors minS maxS db⟩ ∧
    ∀ g < db.gt_bb.length, ∃ i < (labelsOf all_anchors minS maxS db).length,
      (labelsOf all_anchors minS maxS db).getD i 0 = 1 ∧
      ((overlapsOf all_anchors minS maxS db).getD i []).getD g 0 =
        colMaxAt (overlapsOf all_anchors minS maxS db) g := by
  refine ⟨add_anchors_one_ok hR hG, ?_⟩
  intro g hg
  have hmne : overlapsOf all_anchors minS maxS db ≠ [] := by
    rw [overlapsOf]
    intro h
    exact hR (List.map_eq_nil_iff.mp h)
  have hcne : (overlapsOf all_anchors minS maxS db).map (fun r => r.getD g 0) ≠ [] := by
    intro h
    exact hmne (List.map_eq_nil_iff.mp h)
  have hmem : colMaxAt (overlapsOf all_anchors minS maxS db) g ∈
      (overlapsOf all_anchors minS maxS db).map (fun r => r.getD g 0) :=
    npMax_mem hcne
  rcases List.mem_map.mp hmem with ⟨row, hrow, hrg⟩
  rcases List.mem_iff_getElem.mp hrow with ⟨i, hi, hrowi⟩
  refine ⟨i, by rw [labelsOf, List.length_map]; exact hi, ?_, ?_⟩
  · rw [labelsOf, getD_map_of_lt _ _ hi 0 [],
      getD_of_getElem hi hrowi]
    rw [anchorLabel]
    have hany : ((List.range db.gt_bb.length).any fun j =>
        decide (row.getD j 0 = colMaxAt (overlapsOf all_anchors minS maxS db) j)) = true := by
      rw [List.any_eq_true]
      refine ⟨g, List.mem_range.mpr hg, ?_⟩
      rw [decide_eq_true_eq]
      exact hrg
    by_cases h1 : POSITIVE_OVERLAP ≤ npMax row
    · rw [if_pos h1]
    · rw [if_neg h1, if_pos hany]
  · rw [getD_of_getElem hi hrowi, hrg]

theorem css_600_600 : calculate_scale_shape 600 1000 (600, 600) = (1, 600, 600) := by
  simp only [calculate_scale_shape, min_def, max_def]
  norm_num [npRound]

theorem idxInside_unit (db : RoiRecord) (h : db.img_shape = (600, 600)) :
    idxInsideOf [⟨0, 0, 9, 9⟩] 600 1000 db = [0] := by
  rw [idxInsideOf, h, css_600_600]
  show inside_im_bounds [⟨0, 0, 9, 9⟩] (600, 600) = [0]
  norm_num [inside_im_bounds, List.range_succ, List.filter]

theorem insideAnchors_unit (db : RoiRecord) (h : db.img_shape = (600, 600)) :
    insideAnchors [⟨0, 0, 9, 9⟩] 600 1000 db = [⟨0, 0, 9, 9⟩] := by
  rw [insideAnchors, idxInside_unit db h]
  rfl

/-- Claim C1 against the code: when `gt_boxes` is empty but at least one
anchor is in bounds, `overlaps.max(axis=1)` (line 342) reduces a zero-column
matrix and `add_anchors` raises `ValueError` instead of completing with all
anchors `BACKGROUND`. -/
theorem add_anchors_empty_gt_errors (all_anchors : List Box) (minS maxS : ℤ) (db : RoiRecord)
    (hgt : db.gt_bb = []) (hR : insideAnchors all_anchors minS maxS db ≠ []) :
    add_anchors_one all_anchors minS maxS db =
      Except.error "zero-size array to reduction operation maximum which has no identity" := by
  rw [add_anchors_one,
    if_pos (Or.inl ⟨insideAnchors_length_ne_zero hR, by rw [hgt]; rfl⟩)]

/-- Witness for C1: a 600x600 image with one in-bounds anchor and no
ground-truth boxes. -/
theorem add_anchors_empty_gt_errors_witness :
    add_anchors_one [⟨0, 0, 9, 9⟩] 600 1000 ⟨[], [], (600, 600)⟩ =
      Except.error "zero-size array to reduction operation maximum which has no identity" := by
  refine add_anchors_empty_gt_errors [⟨0, 0, 9, 9⟩] 600 1000 ⟨[], [], (600, 600)⟩ rfl ?_
  rw [insideAnchors_unit ⟨[], [], (600, 600)⟩ rfl]
  simp

theorem validBox_unit : validBox ⟨0, 0, 9, 9⟩ := by
  constructor <;> norm_num

theorem scaleBox_one (b : Box) : scaleBox 1 b = b := by
  cases b
  simp [scaleBox]

theorem scaledGt_unit (db : RoiRecord) (h : db.img_shape = (600, 600)) :
    scaledGt 600 1000 db = db.gt_bb := by
  rw [scaledGt, h, css_600_600]
  show db.gt_bb.map (scaleBox 1) = db.gt_bb
  rw [show scaleBox 1 = id from funext fun b => scaleBox_one b, List.map_id]

/-- Claim C3 against the code: at line 370 `add_anchors` stores
`overlaps.argmax(axis=1)` — the index of the best-overlap ground-truth box —
in `max_classes`, not `gt_classes[argmax]` as the claim (and the code's own
comment and its consumer `normalize_bbox_targets`) describe.  Here the
single anchor's best-overlap box has class label 5, yet the stored value is
the argmax index 0. -/
theorem max_classes_stores_argmax_index :
    add_anchors_one [⟨0, 0, 9, 9⟩] 600 1000 ⟨[⟨0, 0, 9, 9⟩], [5], (600, 600)⟩ =
      Except.ok ⟨[1], [0], [0]⟩ ∧
    (⟨[⟨0, 0, 9, 9⟩], [5], (600, 600)⟩ : RoiRecord).gt_classes.getD 0 0 = 5 ∧
    (0 : ℤ) ≠ 5 := by
  have hin := insideAnchors_unit ⟨[⟨0, 0, 9, 9⟩], [5], (600, 600)⟩ rfl
  have hsg := scaledGt_unit ⟨[⟨0, 0, 9, 9⟩], [5], (600, 600)⟩ rfl
  have hov : overlapsOf [⟨0, 0, 9, 9⟩] 600 1000 ⟨[⟨0, 0, 9, 9⟩], [5], (600, 600)⟩ =
      [[1]] := by
    rw [overlapsOf, hin, hsg]
    show [[bbOverlap ⟨0, 0, 9, 9⟩ ⟨0, 0, 9, 9⟩]] = [[1]]
    rw [bbOverlap_self validBox_unit]
  have hlab : labelsOf [⟨0, 0, 9, 9⟩] 600 1000 ⟨[⟨0, 0, 9, 9⟩], [5], (600, 600)⟩ =
      [1] := by
    rw [labelsOf, hov]
    show [anchorLabel [[1]] 1 [1]] = [1]
    rw [anchorLabel]
    norm_num [npMax, POSITIVE_OVERLAP]
  have harg : npArgmax [1] = 0 := by
    norm_num [npArgmax, npMax, List.findIdx_cons]
  refine ⟨?_, rfl, by norm_num⟩
  rw [add_anchors_one_ok (by rw [hin]; simp) (by simp),
    hlab, hov, idxInside_unit ⟨[⟨0, 0, 9, 9⟩], [5], (600, 600)⟩ rfl]
  rw [show [[(1 : ℚ)]].map npArgmax = [npArgmax [1]] from rfl, harg]

/-- Counterexample to claim C4 as stated: one in-bounds anchor, two
ground-truth boxes with overlaps `1/2` and `3/5`.  The single anchor is
foreground (it achieves both column maxima), its row-wise argmax is box 1,
and no foreground anchor has box 0 as row-wise argmax — yet the labeling
succeeds with the stored argmax values `[1]`. -/
theorem gt_argmax_foreground_cex :
    add_anchors_one [⟨0, 0, 9, 9⟩] 600 1000
        ⟨[⟨0, 0, 9, 4⟩, ⟨0, 0, 9, 5⟩], [1, 2], (600, 600)⟩ =
      Except.ok ⟨[1], [1], [0]⟩ ∧
    ¬ ∀ g < 2, ∃ i < 1, ([(1 : ℚ)].getD i 0 = 1 ∧ ([1] : List ℕ).getD i 0 = g) := by
  constructor
  · have hin := insideAnchors_unit ⟨[⟨0, 0, 9, 4⟩, ⟨0, 0, 9, 5⟩], [1, 2], (600, 600)⟩ rfl
    have hsg := scaledGt_unit ⟨[⟨0, 0, 9, 4⟩, ⟨0, 0, 9, 5⟩], [1, 2], (600, 600)⟩ rfl
    have hov : overlapsOf [⟨0, 0, 9, 9⟩] 600 1000
        ⟨[⟨0, 0, 9, 4⟩, ⟨0, 0, 9, 5⟩], [1, 2], (600, 600)⟩ = [[1 / 2, 3 / 5]] := by
      rw [overlapsOf, hin, hsg]
      show [[bbOverlap ⟨0, 0, 9, 9⟩ ⟨0, 0, 9, 4⟩, bbOverlap ⟨0, 0, 9, 9⟩ ⟨0, 0, 9, 5⟩]] =
        [[1 / 2, 3 / 5]]
      norm_num [bbOverlap, interW, interH, boxArea, min_def, max_def]
    have hlab : labelsOf [⟨0, 0, 9, 9⟩] 600 1000
        ⟨[⟨0, 0, 9, 4⟩, ⟨0, 0, 9, 5⟩], [1, 2], (600, 600)⟩ = [1] := by
      rw [labelsOf, hov]
      show [anchorLabel [[1 / 2, 3 / 5]] 2 [1 / 2, 3 / 5]] = [1]
      rw [anchorLabel]
      norm_num [npMax, POSITIVE_OVERLAP, NEGATIVE_OVERLAP, colMaxAt, List.range_succ,
        max_def]
    have hargm : npArgmax [(1 : ℚ) / 2, 3 / 5] = 1 := by
      norm_num [npArgmax, npMax, List.findIdx_cons, max_def]
    rw [add_anchors_one_ok (by rw [hin]; simp) (by simp), hlab, hov,
      idxInside_unit ⟨[⟨0, 0, 9, 4⟩, ⟨0, 0, 9, 5⟩], [1, 2], (600, 600)⟩ rfl]
    rw [show [[(1 : ℚ) / 2, 3 / 5]].map npArgmax = [npArgmax [(1 : ℚ) / 2, 3 / 5]] from rfl,
      hargm]
  · intro h
    rcases h 0 (by norm_num) with ⟨i, hi, _, harg⟩
    rw [Nat.lt_one_iff.mp hi] at harg
    simp at harg

/-- Witness for the amended C4 at the counterexample image: labeling
succeeds and each of the two ground-truth boxes has a foreground anchor
achieving its column maximum. -/
theorem gt_colmax_achiever_foreground_witness :
    add_anchors_one [⟨0, 0, 9, 9⟩] 600 1000
        ⟨[⟨0, 0, 9, 4⟩, ⟨0, 0, 9, 5⟩], [1, 2], (600, 600)⟩ =
      Except.ok ⟨labelsOf [⟨0, 0, 9, 9⟩] 600 1000
          ⟨[⟨0, 0, 9, 4⟩, ⟨0, 0, 9, 5⟩], [1, 2], (600, 600)⟩,
        (overlapsOf [⟨0, 0, 9, 9⟩] 600 1000
          ⟨[⟨0, 0, 9, 4⟩, ⟨0, 0, 9, 5⟩], [1, 2], (600, 600)⟩).map npArgmax,
        idxInsideOf [⟨0, 0, 9, 9⟩] 600 1000
          ⟨[⟨0, 0, 9, 4⟩, ⟨0, 0, 9, 5⟩], [1, 2], (600, 600)⟩⟩ ∧
    ∀ g < (⟨[⟨0, 0, 9, 4⟩, ⟨0, 0, 9, 5⟩], [1, 2], (600, 600)⟩ : RoiRecord).gt_bb.length,
      ∃ i < (labelsOf [⟨0, 0, 9, 9⟩] 600 1000
          ⟨[⟨0, 0, 9, 4⟩, ⟨0, 0, 9, 5⟩], [1, 2], (600, 600)⟩).length,
        (labelsOf [⟨0, 0, 9, 9⟩] 600 1000
          ⟨[⟨0, 0, 9, 4⟩, ⟨0, 0, 9, 5⟩], [1, 2], (600, 600)⟩).getD i 0 = 1 ∧
        ((overlapsOf [⟨0, 0, 9, 9⟩] 600 1000
            ⟨[⟨0, 0, 9, 4⟩, ⟨0, 0, 9, 5⟩], [1, 2], (600, 600)⟩).getD i []).getD g 0 =
          colMaxAt (overlapsOf [⟨0, 0, 9, 9⟩] 600 1000
            ⟨[⟨0, 0, 9, 4⟩, ⟨0, 0, 9, 5⟩], [1, 2], (600, 600)⟩) g :=
  gt_colmax_achiever_foreground [⟨0, 0, 9, 9⟩] 600 1000
    ⟨[⟨0, 0, 9, 4⟩, ⟨0, 0, 9, 5⟩], [1, 2], (600, 600)⟩
    (by rw [insideAnchors_unit _ rfl]; simp) (by simp)

/-- Witness for C9: two ground-truth boxes, the second disjoint from the
single in-bounds anchor, so its overlap column is all zero and every anchor
is labeled foreground. -/
theorem zero_colmax_all_foreground_witness :
    add_anchors_one [⟨0, 0, 9, 9⟩] 600 1000
        ⟨[⟨0, 0, 9, 9⟩, ⟨100, 100, 199, 199⟩], [1, 2], (600, 600)⟩ =
      Except.ok ⟨labelsOf [⟨0, 0, 9, 9⟩] 600 1000
          ⟨[⟨0, 0, 9, 9⟩, ⟨100, 100, 199, 199⟩], [1, 2], (600, 600)⟩,
        (overlapsOf [⟨0, 0, 9, 9⟩] 600 1000
          ⟨[⟨0, 0, 9, 9⟩, ⟨100, 100, 199, 199⟩], [1, 2], (600, 600)⟩).map npArgmax,
        idxInsideOf [⟨0, 0, 9, 9⟩] 600 1000
          ⟨[⟨0, 0, 9, 9⟩, ⟨100, 100, 199, 199⟩], [1, 2], (600, 600)⟩⟩ ∧
    ∀ x ∈ labelsOf [⟨0, 0, 9, 9⟩] 600 1000
        ⟨[⟨0, 0, 9, 9⟩, ⟨100, 100, 199, 199⟩], [1, 2], (600, 600)⟩, x = 1 := by
  have hov : overlapsOf [⟨0, 0, 9, 9⟩] 600 1000
      ⟨[⟨0, 0, 9, 9⟩, ⟨100, 100, 199, 199⟩], [1, 2], (600, 600)⟩ = [[1, 0]] := by
    rw [overlapsOf, insideAnchors_unit _ rfl, scaledGt_unit _ rfl]
    show [[bbOverlap ⟨0, 0, 9, 9⟩ ⟨0, 0, 9, 9⟩, bbOverlap ⟨0, 0, 9, 9⟩ ⟨100, 100, 199, 199⟩]] =
      [[1, 0]]
    rw [bbOverlap_self validBox_unit]
    norm_num [bbOverlap, interW, min_def, max_def]
  have hcol : colMaxAt (overlapsOf [⟨0, 0, 9, 9⟩] 600 1000
      ⟨[⟨0, 0, 9, 9⟩, ⟨100, 100, 199, 199⟩], [1, 2], (600, 600)⟩) 1 = 0 := by
    rw [hov]
    norm_num [colMaxAt, npMax]
  exact zero_colmax_all_foreground [⟨0, 0, 9, 9⟩] 600 1000
    ⟨[⟨0, 0, 9, 9⟩, ⟨100, 100, 199, 199⟩], [1, 2], (600, 600)⟩
    (by rw [insideAnchors_unit _ rfl]; simp) (by simp) 1 (by simp) hcol

/-- Witness for C8: the max-side clipping branch fires at `(2000, 1000)`. -/
theorem calculate_scale_shape_spec_witness :
    (calculate_scale_shape 600 1000 (2000, 1000)).1 =
      (1000 : ℚ) / ((max (2000 : ℤ) 1000 : ℤ) : ℚ) :=
  (calculate_scale_shape_spec.1 600 1000 2000 1000 (by norm_num) (by norm_num)).2.1
    (by norm_num [npRound, min_def, max_def])
